import Mathlib

/-!
Shallow embedding of the cross-provider blame/aggregation engine of the
`git-analyzer` repository (package `repo`, `pkg/repo/repo.go`, plus the
HTTP handler in `pkg/server`).  Remote REST calls are modelled as explicit
function parameters returning `Except String _` (the Go `(T, error)`
convention); the Go `map[string]BlameInfo` is modelled as an association
list in insertion order together with the lookup/update functions below
(Go maps guarantee no iteration order, which matters for `FormatBlameInfo`
and is treated explicitly there).  Go `int` is modelled as `Int`
(contribution counts are small increments; overflow is immaterial here).
-/

namespace GitAnalyzer

/-- `Repository` from pkg/repo/repo.go. -/
structure Repository where
  Name : String
  FullName : String
  URL : String
  Provider : String
deriving DecidableEq, Repr

/-- `PullRequest` from pkg/repo/repo.go. -/
structure PullRequest where
  Number : Int
  Title : String
  State : String
  URL : String
  Provider : String
  ChangedFiles : List String
deriving DecidableEq, Repr

/-- `BlameInfo` from pkg/repo/repo.go. -/
structure BlameInfo where
  User : String
  Lines : Int
deriving DecidableEq, Repr

/-- The author record of a GitHub commit (`commit.GetAuthor()`); `Name` and
`Email` are the two identity fields the code reads, with `""` standing for
an absent field (Go getter zero value). -/
structure CommitAuthor where
  Name : String
  Email : String
deriving DecidableEq, Repr

/-- A GitHub commit as consumed by `GetBlameInfo`.  `ChangedLines` is the
provider-side changed-line count for the (commit, file) pair; the Go code
never reads it (it is provider data available only through a further
detail fetch), it is carried here so that scenario inputs can state it. -/
structure RepositoryCommit where
  Author : CommitAuthor
  ChangedLines : Int
deriving DecidableEq, Repr

/-- A GitLab commit as consumed by `GetBlameInfo` (`commit.AuthorName`,
`commit.AuthorEmail`); `ChangedLines` as in `RepositoryCommit`, unread. -/
structure GitLabCommit where
  AuthorName : String
  AuthorEmail : String
  ChangedLines : Int
deriving DecidableEq, Repr

/-- A GitHub repository as delivered by the provider listing call. -/
structure GHRepo where
  Name : String
  FullName : String
  HTMLURL : String
deriving DecidableEq, Repr

/-- A GitLab project as delivered by the provider listing call. -/
structure GLProject where
  Name : String
  PathWithNamespace : String
  WebURL : String
deriving DecidableEq, Repr

/-- A GitHub pull request as delivered by `PullRequests.List`. -/
structure GHPullRequest where
  Number : Int
  Title : String
  State : String
  HTMLURL : String
deriving DecidableEq, Repr

/-- One entry of `PullRequests.ListFiles`. -/
structure GHCommitFile where
  Filename : String
deriving DecidableEq, Repr

/-- A GitLab merge request as delivered by `ListProjectMergeRequests`. -/
structure GLMergeRequest where
  IID : Int
  Title : String
  State : String
  WebURL : String
deriving DecidableEq, Repr

/-- One entry of `GetMergeRequestChanges(...).Changes`. -/
structure GLChange where
  NewPath : String
deriving DecidableEq, Repr

/-- Splitting a character list at every `'/'`, the semantics of Go's
`strings.Split(s, "/")`: the empty string splits to `[""]`, `"/"` to
`["", ""]`, `"a/b"` to `["a", "b"]`. -/
def splitCharsOnSlash : List Char → List (List Char)
  | [] => [[]]
  | c :: rest =>
    if c = '/' then [] :: splitCharsOnSlash rest
    else
      match splitCharsOnSlash rest with
      | [] => [[c]]
      | seg :: segs => (c :: seg) :: segs

/-- `strings.Split(s, "/")` as used by `splitRepoFullName`. -/
def splitSlash (s : String) : List String :=
  (splitCharsOnSlash s.toList).map fun cs => String.mk cs

/-- `splitRepoFullName` from pkg/repo/repo.go: `strings.Split(fullName, "/")`;
anything other than exactly two parts yields `("", "")` (no error). -/
def splitRepoFullName (fullName : String) : String × String :=
  match splitSlash fullName with
  | [owner, repo] => (owner, repo)
  | _ => ("", "")

/-- Go map read `blameInfo[author]`: the stored value, or the zero value
`{User:"", Lines:0}` when the key is absent. -/
def lookupBlame : List (String × BlameInfo) → String → Option BlameInfo
  | [], _ => none
  | p :: rest, k => if p.1 = k then some p.2 else lookupBlame rest k

/-- Go map read with zero-value default (`info := blameInfo[author]`). -/
def blameGet (m : List (String × BlameInfo)) (k : String) : BlameInfo :=
  (lookupBlame m k).getD { User := "", Lines := 0 }

/-- Go map write `blameInfo[author] = info`: replace the entry if the key is
present, otherwise append it (insertion-ordered determinization of the map). -/
def blameSet : List (String × BlameInfo) → String → BlameInfo → List (String × BlameInfo)
  | [], k, v => [(k, v)]
  | p :: rest, k, v => if p.1 = k then (k, v) :: rest else p :: blameSet rest k v

/-- The per-author Lines total currently recorded in the map (0 if absent). -/
def linesOf (m : List (String × BlameInfo)) (a : String) : Int :=
  (blameGet m a).Lines

/-- One iteration of the inner commit loop of `GetBlameInfo` for a resolved
author: `info := blameInfo[author]; info.User = author; info.Lines += 1;
blameInfo[author] = info`. -/
def blameStep (m : List (String × BlameInfo)) (author : String) : List (String × BlameInfo) :=
  blameSet m author { User := author, Lines := (blameGet m author).Lines + 1 }

/-- The inner `for _, commit := range commits` loop of `GetBlameInfo`,
generic in the provider-specific author resolution. -/
def recordCommits (resolve : γ → String) (m : List (String × BlameInfo))
    (commits : List γ) : List (String × BlameInfo) :=
  commits.foldl (fun acc c => blameStep acc (resolve c)) m

/-- The outer `for _, file := range files` loop of `GetBlameInfo` (identical
in both providers): fetch the file's commit history, abort with the wrapped
error on failure, otherwise fold the commits into the accumulator. -/
def blameWalk (resolve : γ → String) (fetch : String → Except String (List γ)) :
    List String → List (String × BlameInfo) → Except String (List (String × BlameInfo))
  | [], m => .ok m
  | file :: rest, m =>
    match fetch file with
    | .error e => .error ("failed to get commits for file " ++ file ++ ": " ++ e)
    | .ok commits => blameWalk resolve fetch rest (recordCommits resolve m commits)

/-- GitHub author resolution inside `GetBlameInfo`:
`author := commit.GetAuthor().GetName(); if author == "" { author = commit.GetAuthor().GetEmail() }`. -/
def ghResolveAuthor (c : RepositoryCommit) : String :=
  if c.Author.Name = "" then c.Author.Email else c.Author.Name

/-- GitLab author resolution inside `GetBlameInfo`:
`author := commit.AuthorName; if author == "" { author = commit.AuthorEmail }`. -/
def glResolveAuthor (c : GitLabCommit) : String :=
  if c.AuthorName = "" then c.AuthorEmail else c.AuthorName

namespace GitHubClient

/-- `GitHubClient.GetBlameInfo` (pkg/repo/repo.go lines 201-230).
`listCommits owner repo path` models `Repositories.ListCommits` with
`CommitsListOptions{Path: file}`.  Note `prNumber` is accepted but never
read, and a malformed `repoFullName` yields owner `""`, repo `""`. -/
def GetBlameInfo (listCommits : String → String → String → Except String (List RepositoryCommit))
    (repoFullName : String) (prNumber : Int) (files : List String) :
    Except String (List (String × BlameInfo)) :=
  let ownerRepo := splitRepoFullName repoFullName
  blameWalk ghResolveAuthor (listCommits ownerRepo.1 ownerRepo.2) files []

end GitHubClient

namespace GitLabClient

/-- `GitLabClient.GetBlameInfo` (pkg/repo/repo.go lines 307-333).
`listCommits project path` models `Commits.ListCommits` with
`ListCommitsOptions{Path: file}`; the full name is passed through unsplit.
`prNumber` is accepted but never read. -/
def GetBlameInfo (listCommits : String → String → Except String (List GitLabCommit))
    (repoFullName : String) (prNumber : Int) (files : List String) :
    Except String (List (String × BlameInfo)) :=
  blameWalk glResolveAuthor (listCommits repoFullName) files []

end GitLabClient

/-- The ascending-by-`FullName` ordered insertion performed (behaviourally)
by `sort.Slice(repos, func(i, j) { return repos[i].GetFullName() < repos[j].GetFullName() })`. -/
def insertRepo (r : GHRepo) : List GHRepo → List GHRepo
  | [] => [r]
  | s :: rest => if r.FullName < s.FullName then r :: s :: rest else s :: insertRepo r rest

/-- The sort of `GitHubClient.ListRepositories`: ascending lexical order of
the full name (left-to-right insertion sort; Go's `sort.Slice` produces some
ordering with the same sortedness guarantee). -/
def sortReposByFullName (l : List GHRepo) : List GHRepo :=
  l.foldl (fun acc r => insertRepo r acc) []

namespace GitHubClient

/-- `GitHubClient.ListRepositories` (pkg/repo/repo.go lines 134-161):
`resp` is the provider response; on success the repositories are sorted
alphabetically by full name and converted. -/
def ListRepositories (resp : Except String (List GHRepo)) : Except String (List Repository) :=
  match resp with
  | .error e => .error ("failed to list GitHub repositories: " ++ e)
  | .ok repos =>
    .ok ((sortReposByFullName repos).map fun r =>
      { Name := r.Name, FullName := r.FullName, URL := r.HTMLURL, Provider := "github" })

end GitHubClient

namespace GitLabClient

/-- `GitLabClient.ListRepositories` (pkg/repo/repo.go lines 241-266):
projects are converted in the order the provider delivered them; no
client-side sort is performed. -/
def ListRepositories (resp : Except String (List GLProject)) : Except String (List Repository) :=
  match resp with
  | .error e => .error ("failed to list GitLab repositories: " ++ e)
  | .ok projects =>
    .ok (projects.map fun p =>
      { Name := p.Name, FullName := p.PathWithNamespace, URL := p.WebURL, Provider := "gitlab" })

end GitLabClient

/-- The body of the GitHub pull-request loop: for each PR fetch its changed
files (`PullRequests.ListFiles`), aborting on the first failure. -/
def ghPRWalk (listFiles : Int → Except String (List GHCommitFile)) :
    List GHPullRequest → Except String (List PullRequest)
  | [] => .ok []
  | pr :: rest =>
    match listFiles pr.Number with
    | .error e => .error ("failed to get changed files: " ++ e)
    | .ok fs =>
      match ghPRWalk listFiles rest with
      | .error e => .error e
      | .ok tail =>
        .ok ({ Number := pr.Number, Title := pr.Title, State := pr.State,
               URL := pr.HTMLURL, Provider := "github",
               ChangedFiles := fs.map (·.Filename) } :: tail)

/-- The body of the GitLab merge-request loop: for each MR fetch its changes
(`GetMergeRequestChanges`), aborting on the first failure. -/
def glMRWalk (getChanges : Int → Except String (List GLChange)) :
    List GLMergeRequest → Except String (List PullRequest)
  | [] => .ok []
  | mr :: rest =>
    match getChanges mr.IID with
    | .error e => .error ("failed to get changed files: " ++ e)
    | .ok cs =>
      match glMRWalk getChanges rest with
      | .error e => .error e
      | .ok tail =>
        .ok ({ Number := mr.IID, Title := mr.Title, State := mr.State,
               URL := mr.WebURL, Provider := "gitlab",
               ChangedFiles := cs.map (·.NewPath) } :: tail)

namespace GitHubClient

/-- `GitHubClient.ListPullRequests` (pkg/repo/repo.go lines 163-199):
`listPRs owner repo` models `PullRequests.List` with `State: "open"` in the
options (the state filter is the remote's; each entry's `State` is copied
verbatim from the response); `listFiles` models `PullRequests.ListFiles`. -/
def ListPullRequests (listPRs : String → String → Except String (List GHPullRequest))
    (listFiles : Int → Except String (List GHCommitFile))
    (repoFullName : String) : Except String (List PullRequest) :=
  let ownerRepo := splitRepoFullName repoFullName
  match listPRs ownerRepo.1 ownerRepo.2 with
  | .error e => .error ("failed to list pull requests: " ++ e)
  | .ok prs => ghPRWalk listFiles prs

end GitHubClient

namespace GitLabClient

/-- `GitLabClient.ListPullRequests` (pkg/repo/repo.go lines 268-305):
`listMRs project` models `ListProjectMergeRequests` with `State: "opened"`
in the options (remote-side filter; each entry's `State` is copied verbatim
from the response); `getChanges` models `GetMergeRequestChanges`. -/
def ListPullRequests (listMRs : String → Except String (List GLMergeRequest))
    (getChanges : Int → Except String (List GLChange))
    (repoFullName : String) : Except String (List PullRequest) :=
  match listMRs repoFullName with
  | .error e => .error ("failed to list merge requests: " ++ e)
  | .ok mrs => glMRWalk getChanges mrs

end GitLabClient

/-- Descending-by-`Lines` ordered insertion: the behaviour of
`sort.Slice(infoSlice, func(i, j) { return infoSlice[i].Lines > infoSlice[j].Lines })`
at the slice sizes that arise here (Go falls back to insertion sort on short
slices; `sort.Slice` promises no stability in general). -/
def insertBlameDesc (x : BlameInfo) : List BlameInfo → List BlameInfo
  | [] => [x]
  | y :: rest => if x.Lines > y.Lines then x :: y :: rest else y :: insertBlameDesc x rest

/-- The descending sort inside `FormatBlameInfo`: left-to-right insertion
sort, which is what Go's `sort.Slice` runs at the small slice lengths
arising here (and is stable in the input-slice order; the input-slice order
itself is the unspecified map iteration order). -/
def sortBlameDesc (l : List BlameInfo) : List BlameInfo :=
  l.foldl (fun acc x => insertBlameDesc x acc) []

/-- One `"user: n lines\n"` line of the formatted blame block. -/
def blameLine (i : BlameInfo) : String :=
  i.User ++ ": " ++ toString i.Lines ++ " lines\n"

/-- `FormatBlameInfo` (pkg/repo/repo.go lines 365-386).  Its Go argument is
`map[string]BlameInfo`; `blameEntries` is the sequence of map values in the
map's iteration order, which Go deliberately leaves unspecified (it is NOT
the insertion/encounter order).  The entries are sorted descending by
`Lines` and printed. -/
def FormatBlameInfo (blameEntries : List BlameInfo) : String :=
  "\nAuthors and Lines Touched:\n-------------------------\n" ++
    String.join ((sortBlameDesc blameEntries).map blameLine)

namespace Server

/-- The observable outcome of the blame path of `Server.handleMessages`:
either an error response with an HTTP status code, or a success payload
(the `blameData` map as author/count pairs). -/
inductive HandlerResponse
  | errorResp (status : Nat) (msg : String)
  | success (data : List (String × Int))
deriving DecidableEq, Repr

/-- The decision flow of `Server.handleMessages` for a validated `git-blame`
request (pkg/server, `handleMessages`): list the open pull requests
(`listPRs`, transport failure → status 500); search them for the requested
number (`break` on first match); absent → status 404 not-found response and
return (no blame call); present → `GetBlameInfo` on the selected PR's
changed files (`getBlame`, transport failure → status 500), else 200 with
the per-author data. -/
def handleMessages (listPRs : Except String (List PullRequest))
    (getBlame : List String → Except String (List (String × BlameInfo)))
    (pullRequest : Int) : HandlerResponse :=
  match listPRs with
  | .error e => .errorResp 500 ("Failed to get pull requests: " ++ e)
  | .ok prs =>
    match prs.find? (fun pr => pr.Number == pullRequest) with
    | none => .errorResp 404 ("Pull request #" ++ toString pullRequest ++ " not found")
    | some selectedPR =>
      match getBlame selectedPR.ChangedFiles with
      | .error e => .errorResp 500 ("Failed to get blame information: " ++ e)
      | .ok blameInfo => .success (blameInfo.map fun p => (p.2.User, p.2.Lines))

end Server

namespace cli

/-- `splitRepoFullName` from cmd/cli/root.go (the CLI-layer variant): unlike
the repo-package variant, a malformed name is rejected with an error. -/
def splitRepoFullName (fullName : String) : Except String (String × String) :=
  match splitSlash fullName with
  | [owner, repo] => .ok (owner, repo)
  | _ => .error ("invalid repository name format: " ++ fullName ++ ". Expected format: owner/repo")

end cli

/-! ### Helper notions for the aggregation proofs -/

/-- Number of commits in a history whose resolved author is `a`. -/
def countBy (resolve : γ → String) (a : String) (cs : List γ) : Nat :=
  cs.countP (fun c => resolve c == a)

/-- The pure reduction underlying `blameWalk` when every fetch succeeds with
history `h`. -/
def blameFold (resolve : γ → String) (h : String → List γ) (files : List String)
    (m : List (String × BlameInfo)) : List (String × BlameInfo) :=
  files.foldl (fun acc f => recordCommits resolve acc (h f)) m

/-- Total contribution of author `a` over a list of files with histories `h`. -/
def totalBy (resolve : γ → String) (h : String → List γ) (a : String)
    (files : List String) : Nat :=
  (files.map fun f => countBy resolve a (h f)).sum

theorem lookupBlame_blameSet (m : List (String × BlameInfo)) (k k' : String) (v : BlameInfo) :
    lookupBlame (blameSet m k v) k' = if k' = k then some v else lookupBlame m k' := by
  induction m with
  | nil =>
    by_cases h : k' = k
    · subst h; simp [blameSet, lookupBlame]
    · simp [blameSet, lookupBlame, h, Ne.symm h]
  | cons p rest ih =>
    by_cases hp : p.1 = k
    · by_cases h : k' = k
      · subst h; simp [blameSet, lookupBlame, hp]
      · have hk : ¬ k = k' := fun hh => h hh.symm
        simp [blameSet, lookupBlame, hp, h, hk]
    · by_cases hq : p.1 = k'
      · have hk : ¬ k' = k := fun hh => hp (hh ▸ hq)
        simp [blameSet, lookupBlame, hp, hq, hk]
      · simp [blameSet, lookupBlame, hp, hq, ih]

theorem lookupBlame_blameStep_self (m : List (String × BlameInfo)) (a : String) :
    lookupBlame (blameStep m a) a = some ⟨a, linesOf m a + 1⟩ := by
  unfold blameStep linesOf
  rw [lookupBlame_blameSet]
  simp

theorem lookupBlame_blameStep_ne (m : List (String × BlameInfo)) (a b : String) (h : b ≠ a) :
    lookupBlame (blameStep m a) b = lookupBlame m b := by
  unfold blameStep
  rw [lookupBlame_blameSet]
  simp [h]

theorem linesOf_blameStep_self (m : List (String × BlameInfo)) (a : String) :
    linesOf (blameStep m a) a = linesOf m a + 1 := by
  simp [linesOf, blameGet, lookupBlame_blameStep_self m a]

theorem linesOf_blameStep_ne (m : List (String × BlameInfo)) (a b : String) (h : b ≠ a) :
    linesOf (blameStep m a) b = linesOf m b := by
  simp [linesOf, blameGet, lookupBlame_blameStep_ne m a b h]

theorem recordCommits_cons (resolve : γ → String) (m : List (String × BlameInfo))
    (c : γ) (cs : List γ) :
    recordCommits resolve m (c :: cs) = recordCommits resolve (blameStep m (resolve c)) cs := rfl

theorem lookupBlame_recordCommits (resolve : γ → String) (cs : List γ) :
    ∀ (m : List (String × BlameInfo)) (a : String),
      lookupBlame (recordCommits resolve m cs) a =
        if countBy resolve a cs = 0 then lookupBlame m a
        else some ⟨a, linesOf m a + (countBy resolve a cs : Int)⟩ := by
  induction cs with
  | nil => intro m a; simp [recordCommits, countBy]
  | cons c cs ih =>
    intro m a
    rw [recordCommits_cons, ih]
    by_cases hc : resolve c = a
    · have hcount : countBy resolve a (c :: cs) = countBy resolve a cs + 1 := by
        simp [countBy, List.countP_cons, hc]
      rw [hc, hcount]
      by_cases h0 : countBy resolve a cs = 0
      · rw [if_pos h0, if_neg (by omega), lookupBlame_blameStep_self, h0]
        simp
      · rw [if_neg h0, if_neg (by omega), linesOf_blameStep_self]
        simp only [Option.some.injEq, BlameInfo.mk.injEq, true_and]
        push_cast
        ring
    · have hcount : countBy resolve a (c :: cs) = countBy resolve a cs := by
        simp [countBy, List.countP_cons, hc]
      rw [hcount, lookupBlame_blameStep_ne _ _ _ (Ne.symm hc),
        linesOf_blameStep_ne _ _ _ (Ne.symm hc)]

theorem linesOf_recordCommits (resolve : γ → String) (cs : List γ)
    (m : List (String × BlameInfo)) (a : String) :
    linesOf (recordCommits resolve m cs) a = linesOf m a + (countBy resolve a cs : Int) := by
  by_cases h : countBy resolve a cs = 0
  · simp [linesOf, blameGet, lookupBlame_recordCommits, h]
  · simp [linesOf, blameGet, lookupBlame_recordCommits, h]

theorem totalBy_cons (resolve : γ → String) (h : String → List γ) (a : String)
    (f : String) (fs : List String) :
    totalBy resolve h a (f :: fs) = countBy resolve a (h f) + totalBy resolve h a fs := by
  simp [totalBy]

theorem blameFold_cons (resolve : γ → String) (h : String → List γ)
    (f : String) (fs : List String) (m : List (String × BlameInfo)) :
    blameFold resolve h (f :: fs) m = blameFold resolve h fs (recordCommits resolve m (h f)) := rfl

theorem lookupBlame_blameFold (resolve : γ → String) (h : String → List γ)
    (files : List String) :
    ∀ (m : List (String × BlameInfo)) (a : String),
      lookupBlame (blameFold resolve h files m) a =
        if totalBy resolve h a files = 0 then lookupBlame m a
        else some ⟨a, linesOf m a + (totalBy resolve h a files : Int)⟩ := by
  induction files with
  | nil => intro m a; simp [blameFold, totalBy]
  | cons f fs ih =>
    intro m a
    rw [blameFold_cons, ih, totalBy_cons, lookupBlame_recordCommits, linesOf_recordCommits]
    by_cases h1 : countBy resolve a (h f) = 0
    · by_cases h2 : totalBy resolve h a fs = 0
      · simp [h1, h2]
      · rw [if_neg h2, if_neg (by omega)]
        simp only [Option.some.injEq, BlameInfo.mk.injEq, true_and]
        push_cast
        ring
    · by_cases h2 : totalBy resolve h a fs = 0
      · rw [if_pos h2, if_neg h1, if_neg (by omega)]
        simp only [Option.some.injEq, BlameInfo.mk.injEq, true_and]
        push_cast [h2]
        ring
      · rw [if_neg h2, if_neg (by omega)]
        simp only [Option.some.injEq, BlameInfo.mk.injEq, true_and]
        push_cast
        ring

theorem blameWalk_ok (resolve : γ → String) (fetch : String → Except String (List γ))
    (h : String → List γ) :
    ∀ (files : List String) (m : List (String × BlameInfo)),
      (∀ f ∈ files, fetch f = .ok (h f)) →
      blameWalk resolve fetch files m = .ok (blameFold resolve h files m) := by
  intro files
  induction files with
  | nil => intro m _; rfl
  | cons f fs ih =>
    intro m hf
    have h1 : fetch f = .ok (h f) := hf f (List.mem_cons_self f fs)
    simp only [blameWalk, h1]
    exact ih _ (fun g hg => hf g (List.mem_cons_of_mem f hg))

theorem blameWalk_error (resolve : γ → String) (fetch : String → Except String (List γ)) :
    ∀ (pre : List String) (f : String) (post : List String) (e : String)
      (m : List (String × BlameInfo)),
      (∀ g ∈ pre, ∃ cs, fetch g = .ok cs) → fetch f = .error e →
      blameWalk resolve fetch (pre ++ f :: post) m =
        .error ("failed to get commits for file " ++ f ++ ": " ++ e) := by
  intro pre
  induction pre with
  | nil =>
    intro f post e m _ hf
    simp [blameWalk, hf]
  | cons g gs ih =>
    intro f post e m hpre hf
    obtain ⟨cs, hcs⟩ := hpre g (List.mem_cons_self g gs)
    simp only [List.cons_append, blameWalk, hcs]
    exact ih f post e _ (fun g' hg' => hpre g' (List.mem_cons_of_mem g hg')) hf

theorem totalBy_perm (resolve : γ → String) (h : String → List γ) (a : String)
    {files files' : List String} (hp : files.Perm files') :
    totalBy resolve h a files = totalBy resolve h a files' :=
  List.Perm.sum_eq (hp.map _)

/-! ### Sorting lemmas -/

theorem mem_insertRepo {x r : GHRepo} {l : List GHRepo} :
    x ∈ insertRepo r l ↔ x = r ∨ x ∈ l := by
  induction l with
  | nil => simp [insertRepo]
  | cons s rest ih =>
    by_cases h : r.FullName < s.FullName <;> simp [insertRepo, h, ih] <;> tauto

theorem pairwise_insertRepo {r : GHRepo} {l : List GHRepo}
    (hl : l.Pairwise (fun a b => a.FullName ≤ b.FullName)) :
    (insertRepo r l).Pairwise (fun a b => a.FullName ≤ b.FullName) := by
  induction l with
  | nil => simp [insertRepo]
  | cons s rest ih =>
    rcases List.pairwise_cons.mp hl with ⟨hs, hrest⟩
    by_cases h : r.FullName < s.FullName
    · rw [insertRepo, if_pos h]
      refine List.pairwise_cons.mpr ⟨?_, hl⟩
      intro x hx
      rcases List.mem_cons.mp hx with rfl | hx
      · exact le_of_lt h
      · exact le_trans (le_of_lt h) (hs x hx)
    · rw [insertRepo, if_neg h]
      refine List.pairwise_cons.mpr ⟨?_, ih hrest⟩
      intro x hx
      rcases mem_insertRepo.mp hx with rfl | hx
      · exact le_of_not_lt h
      · exact hs x hx

theorem pairwise_sortReposByFullName (l : List GHRepo) :
    (sortReposByFullName l).Pairwise (fun a b => a.FullName ≤ b.FullName) := by
  suffices h : ∀ acc : List GHRepo, acc.Pairwise (fun a b => a.FullName ≤ b.FullName) →
      (l.foldl (fun acc r => insertRepo r acc) acc).Pairwise
        (fun a b => a.FullName ≤ b.FullName) by
    exact h [] (by simp)
  induction l with
  | nil => intro acc hacc; exact hacc
  | cons r rest ih => intro acc hacc; exact ih _ (pairwise_insertRepo hacc)

theorem mem_insertBlameDesc {x y : BlameInfo} {l : List BlameInfo} :
    x ∈ insertBlameDesc y l ↔ x = y ∨ x ∈ l := by
  induction l with
  | nil => simp [insertBlameDesc]
  | cons z rest ih =>
    by_cases h : y.Lines > z.Lines <;> simp [insertBlameDesc, h, ih] <;> tauto

theorem pairwise_insertBlameDesc {x : BlameInfo} {l : List BlameInfo}
    (hl : l.Pairwise (fun a b => b.Lines ≤ a.Lines)) :
    (insertBlameDesc x l).Pairwise (fun a b => b.Lines ≤ a.Lines) := by
  induction l with
  | nil => simp [insertBlameDesc]
  | cons y rest ih =>
    rcases List.pairwise_cons.mp hl with ⟨hy, hrest⟩
    by_cases h : x.Lines > y.Lines
    · rw [insertBlameDesc, if_pos h]
      refine List.pairwise_cons.mpr ⟨?_, hl⟩
      intro z hz
      rcases List.mem_cons.mp hz with rfl | hz
      · exact le_of_lt h
      · exact le_trans (hy z hz) (le_of_lt h)
    · rw [insertBlameDesc, if_neg h]
      refine List.pairwise_cons.mpr ⟨?_, ih hrest⟩
      intro z hz
      rcases mem_insertBlameDesc.mp hz with rfl | hz
      · exact le_of_not_lt h
      · exact hy z hz

theorem pairwise_sortBlameDesc (l : List BlameInfo) :
    (sortBlameDesc l).Pairwise (fun a b => b.Lines ≤ a.Lines) := by
  suffices h : ∀ acc : List BlameInfo, acc.Pairwise (fun a b => b.Lines ≤ a.Lines) →
      (l.foldl (fun acc x => insertBlameDesc x acc) acc).Pairwise
        (fun a b => b.Lines ≤ a.Lines) by
    exact h [] (by simp)
  induction l with
  | nil => intro acc hacc; exact hacc
  | cons x rest ih => intro acc hacc; exact ih _ (pairwise_insertBlameDesc hacc)

theorem insertBlameDesc_perm (x : BlameInfo) (l : List BlameInfo) :
    (insertBlameDesc x l).Perm (x :: l) := by
  induction l with
  | nil => simp [insertBlameDesc]
  | cons y rest ih =>
    by_cases h : x.Lines > y.Lines
    · rw [insertBlameDesc, if_pos h]
    · rw [insertBlameDesc, if_neg h]
      exact (ih.cons y).trans (List.Perm.swap x y rest)

theorem sortBlameDesc_perm (l : List BlameInfo) : (sortBlameDesc l).Perm l := by
  suffices h : ∀ acc : List BlameInfo,
      (l.foldl (fun acc x => insertBlameDesc x acc) acc).Perm (acc ++ l) by
    simpa using h []
  induction l with
  | nil => intro acc; simp
  | cons x rest ih =>
    intro acc
    refine (ih (insertBlameDesc x acc)).trans ?_
    refine (List.Perm.append_right rest (insertBlameDesc_perm x acc)).trans ?_
    simp only [List.cons_append]
    exact List.perm_middle.symm

/-! ### Pull-request walk lemmas -/

theorem ghPRWalk_state (listFiles : Int → Except String (List GHCommitFile)) :
    ∀ (prs : List GHPullRequest) (l : List PullRequest),
      ghPRWalk listFiles prs = .ok l → ∀ p ∈ l, ∃ pr ∈ prs, p.State = pr.State := by
  intro prs
  induction prs with
  | nil =>
    intro l hok p hp
    simp only [ghPRWalk] at hok
    cases hok
    simp at hp
  | cons pr rest ih =>
    intro l hok p hp
    simp only [ghPRWalk] at hok
    cases hf : listFiles pr.Number with
    | error e => rw [hf] at hok; cases hok
    | ok fs =>
      rw [hf] at hok
      cases hw : ghPRWalk listFiles rest with
      | error e => rw [hw] at hok; cases hok
      | ok tail =>
        rw [hw] at hok
        cases hok
        rcases List.mem_cons.mp hp with rfl | hp'
        · exact ⟨pr, List.mem_cons_self pr rest, rfl⟩
        · obtain ⟨pr', hmem, hstate⟩ := ih tail hw p hp'
          exact ⟨pr', List.mem_cons_of_mem pr hmem, hstate⟩

theorem glMRWalk_state (getChanges : Int → Except String (List GLChange)) :
    ∀ (mrs : List GLMergeRequest) (l : List PullRequest),
      glMRWalk getChanges mrs = .ok l → ∀ p ∈ l, ∃ mr ∈ mrs, p.State = mr.State := by
  intro mrs
  induction mrs with
  | nil =>
    intro l hok p hp
    simp only [glMRWalk] at hok
    cases hok
    simp at hp
  | cons mr rest ih =>
    intro l hok p hp
    simp only [glMRWalk] at hok
    cases hf : getChanges mr.IID with
    | error e => rw [hf] at hok; cases hok
    | ok cs =>
      rw [hf] at hok
      cases hw : glMRWalk getChanges rest with
      | error e => rw [hw] at hok; cases hok
      | ok tail =>
        rw [hw] at hok
        cases hok
        rcases List.mem_cons.mp hp with rfl | hp'
        · exact ⟨mr, List.mem_cons_self mr rest, rfl⟩
        · obtain ⟨mr', hmem, hstate⟩ := ih tail hw p hp'
          exact ⟨mr', List.mem_cons_of_mem mr hmem, hstate⟩

/-! ### Claims -/

/-- C1 (counterexample): in the end-to-end scenario — repository
"octo/widgets", change-request 7, files ["a.go","b.go"], where "a.go" has 2
commits by "alice" with per-file changed-line weights 3 and 2 and "b.go" has
1 commit by "bob" with weight 4 — `GetBlameInfo` does NOT return
{"alice": 5, "bob": 4}: the code adds 1 per commit (`info.Lines += 1`) and
never reads the changed-line weights, so it returns {"alice": 2, "bob": 1}. -/
theorem blame_weight_scenario_counterexample :
    GitHubClient.GetBlameInfo
        (fun _ _ f =>
          if f = "a.go" then .ok [⟨⟨"alice", ""⟩, 3⟩, ⟨⟨"alice", ""⟩, 2⟩]
          else if f = "b.go" then .ok [⟨⟨"bob", ""⟩, 4⟩]
          else .error "no such file")
        "octo/widgets" 7 ["a.go", "b.go"] =
      .ok [("alice", ⟨"alice", 2⟩), ("bob", ⟨"bob", 1⟩)] ∧
    [("alice", (⟨"alice", 2⟩ : BlameInfo)), ("bob", ⟨"bob", 1⟩)] ≠
      [("alice", ⟨"alice", 5⟩), ("bob", ⟨"bob", 4⟩)] :=
  ⟨rfl, by decide⟩

/-- C1 (amended): in that scenario the blame aggregation returns
{"alice": 2, "bob": 1} — the contribution weight is one unit per commit
touching the file, not the per-file changed-line count, for both
providers. -/
theorem blame_weight_scenario_amended :
    GitHubClient.GetBlameInfo
        (fun _ _ f =>
          if f = "a.go" then .ok [⟨⟨"alice", ""⟩, 3⟩, ⟨⟨"alice", ""⟩, 2⟩]
          else if f = "b.go" then .ok [⟨⟨"bob", ""⟩, 4⟩]
          else .error "no such file")
        "octo/widgets" 7 ["a.go", "b.go"] =
      .ok [("alice", ⟨"alice", 2⟩), ("bob", ⟨"bob", 1⟩)] ∧
    GitLabClient.GetBlameInfo
        (fun _ f =>
          if f = "a.go" then .ok [⟨"alice", "", 3⟩, ⟨"alice", "", 2⟩]
          else if f = "b.go" then .ok [⟨"bob", "", 4⟩]
          else .error "no such file")
        "octo/widgets" 7 ["a.go", "b.go"] =
      .ok [("alice", ⟨"alice", 2⟩), ("bob", ⟨"bob", 1⟩)] :=
  ⟨rfl, rfl⟩

/-- C2 (counterexample): a commit whose primary and secondary author
identity fields are both empty is aggregated under the empty string, not
under "Unknown Author" — no placeholder exists in either provider's
`GetBlameInfo`. -/
theorem author_fallback_counterexample :
    GitHubClient.GetBlameInfo (fun _ _ _ => .ok [⟨⟨"", ""⟩, 9⟩]) "o/w" 1 ["a.go"] =
      .ok [("", ⟨"", 1⟩)] ∧
    GitLabClient.GetBlameInfo (fun _ _ => .ok [⟨"", "", 9⟩]) "o/w" 1 ["a.go"] =
      .ok [("", ⟨"", 1⟩)] ∧
    ("" : String) ≠ "Unknown Author" :=
  ⟨rfl, rfl, by decide⟩

/-- C2 (amended): the fallback order is name, then email, with no further
placeholder: a commit whose name and email fields are both empty resolves
to the empty string and is aggregated under the empty-string key, in both
providers. -/
theorem author_fallback_amended (ghFetch : String → String → String → Except String (List RepositoryCommit))
    (glFetch : String → String → Except String (List GitLabCommit))
    (full file : String) (n : Int) (c : RepositoryCommit) (cgl : GitLabCommit)
    (hn : c.Author.Name = "") (he : c.Author.Email = "")
    (hgn : cgl.AuthorName = "") (hge : cgl.AuthorEmail = "")
    (hf : ghFetch (splitRepoFullName full).1 (splitRepoFullName full).2 file = .ok [c])
    (hg : glFetch full file = .ok [cgl]) :
    GitHubClient.GetBlameInfo ghFetch full n [file] = .ok [("", ⟨"", 1⟩)] ∧
    GitLabClient.GetBlameInfo glFetch full n [file] = .ok [("", ⟨"", 1⟩)] := by
  constructor
  · simp [GitHubClient.GetBlameInfo, blameWalk, hf, recordCommits, blameStep,
      ghResolveAuthor, hn, he, blameGet, lookupBlame, blameSet]
  · simp [GitLabClient.GetBlameInfo, blameWalk, hg, recordCommits, blameStep,
      glResolveAuthor, hgn, hge, blameGet, lookupBlame, blameSet]

/-- C2 (witness). -/
theorem author_fallback_amended_witness :
    GitHubClient.GetBlameInfo (fun _ _ _ => .ok [⟨⟨"", ""⟩, 9⟩]) "o/w" 3 ["a.go"] =
      .ok [("", ⟨"", 1⟩)] ∧
    GitLabClient.GetBlameInfo (fun _ _ => .ok [⟨"", "", 9⟩]) "o/w" 3 ["a.go"] =
      .ok [("", ⟨"", 1⟩)] :=
  author_fallback_amended (fun _ _ _ => .ok [⟨⟨"", ""⟩, 9⟩]) (fun _ _ => .ok [⟨"", "", 9⟩])
    "o/w" "a.go" 3 ⟨⟨"", ""⟩, 9⟩ ⟨"", "", 9⟩ rfl rfl rfl rfl rfl rfl

/-- C3 (counterexample): `GitLabClient.ListRepositories` performs no
client-side sort — it returns projects in the provider's order, so with the
provider delivering "zeta/z" before "alpha/a" the output is not in
ascending full-name order. -/
theorem repo_sort_counterexample :
    GitLabClient.ListRepositories (.ok [⟨"z", "zeta/z", "u1"⟩, ⟨"a", "alpha/a", "u2"⟩]) =
      .ok [⟨"z", "zeta/z", "u1", "gitlab"⟩, ⟨"a", "alpha/a", "u2", "gitlab"⟩] ∧
    ¬ ([(⟨"z", "zeta/z", "u1", "gitlab"⟩ : Repository), ⟨"a", "alpha/a", "u2", "gitlab"⟩].Pairwise
        (fun a b => a.FullName ≤ b.FullName)) := by
  refine ⟨rfl, fun h => ?_⟩
  have hle := (List.pairwise_cons.mp h).1 _ (List.mem_cons_self _ _)
  rw [String.le_iff_toList_le] at hle
  exact absurd hle (by decide)

/-- C3 (amended): only `GitHubClient.ListRepositories` sorts its result in
ascending lexical full-name order regardless of provider ordering;
`GitLabClient.ListRepositories` returns repositories in the order the
provider delivered them. -/
theorem repo_sort_amended :
    (∀ repos : List GHRepo,
      GitHubClient.ListRepositories (.ok repos) =
        .ok ((sortReposByFullName repos).map fun r =>
          { Name := r.Name, FullName := r.FullName, URL := r.HTMLURL, Provider := "github" }) ∧
      (((sortReposByFullName repos).map fun r =>
          ({ Name := r.Name, FullName := r.FullName, URL := r.HTMLURL,
             Provider := "github" } : Repository)).Pairwise
        (fun a b => a.FullName ≤ b.FullName))) ∧
    (∀ projects : List GLProject,
      GitLabClient.ListRepositories (.ok projects) =
        .ok (projects.map fun p =>
          { Name := p.Name, FullName := p.PathWithNamespace, URL := p.WebURL,
            Provider := "gitlab" })) := by
  refine ⟨fun repos => ⟨rfl, ?_⟩, fun projects => rfl⟩
  exact List.Pairwise.map _ (fun a b h => h) (pairwise_sortReposByFullName repos)

/-- C4 (counterexample): `FormatBlameInfo` receives the Go map's values in
the map's iteration order, which Go does not fix; for the mapping
{A: 5, B: 5, C: 3} encountered in order A, B, C, the iteration order
[B, A, C] (a permutation of the same map entries) formats B before A, so
the tie-breaking "order first encountered during aggregation" does not
hold. -/
theorem ranking_stability_counterexample :
    FormatBlameInfo [⟨"B", 5⟩, ⟨"A", 5⟩, ⟨"C", 3⟩] =
      "\nAuthors and Lines Touched:\n-------------------------\nB: 5 lines\nA: 5 lines\nC: 3 lines\n" ∧
    FormatBlameInfo [⟨"A", 5⟩, ⟨"B", 5⟩, ⟨"C", 3⟩] =
      "\nAuthors and Lines Touched:\n-------------------------\nA: 5 lines\nB: 5 lines\nC: 3 lines\n" ∧
    ([(⟨"B", 5⟩ : BlameInfo), ⟨"A", 5⟩, ⟨"C", 3⟩].Perm [⟨"A", 5⟩, ⟨"B", 5⟩, ⟨"C", 3⟩]) ∧
    FormatBlameInfo [⟨"B", 5⟩, ⟨"A", 5⟩, ⟨"C", 3⟩] ≠
      FormatBlameInfo [⟨"A", 5⟩, ⟨"B", 5⟩, ⟨"C", 3⟩] :=
  ⟨rfl, rfl, by decide, by decide⟩

/-- C4 (amended): `FormatBlameInfo` lists authors in descending order of
contribution count (its sorted output is a permutation of the map entries
it was handed); the relative order of authors with equal counts follows the
map's iteration sequence, which Go leaves unspecified — it is not the
aggregation encounter order. -/
theorem ranking_descending_amended (blameEntries : List BlameInfo) :
    FormatBlameInfo blameEntries =
      "\nAuthors and Lines Touched:\n-------------------------\n" ++
        String.join ((sortBlameDesc blameEntries).map blameLine) ∧
    (sortBlameDesc blameEntries).Pairwise (fun a b => b.Lines ≤ a.Lines) ∧
    (sortBlameDesc blameEntries).Perm blameEntries :=
  ⟨rfl, pairwise_sortBlameDesc blameEntries, sortBlameDesc_perm blameEntries⟩

/-- C5 (counterexample): GitLab's listing requests state "opened" and copies
the provider-reported state verbatim, so a merge request honouring the
requested filter yields an entry whose state is "opened", not "open". -/
theorem open_state_counterexample :
    GitLabClient.ListPullRequests (fun _ => .ok [⟨4, "t", "opened", "u"⟩])
        (fun _ => .ok [⟨"f.go"⟩]) "o/w" =
      .ok [⟨4, "t", "opened", "u", "gitlab", ["f.go"]⟩] ∧
    ("opened" : String) ≠ "open" :=
  ⟨rfl, by decide⟩

/-- C5 (amended): both listings delegate the open-state filter to the remote
query and copy each entry's state verbatim from the provider response; when
the provider honours the filter, every GitHub entry's state is "open" and
every GitLab entry's state is "opened" (GitLab's name for the open state). -/
theorem open_state_amended :
    (∀ (listPRs : String → String → Except String (List GHPullRequest))
        (listFiles : Int → Except String (List GHCommitFile))
        (full : String) (prs : List GHPullRequest) (l : List PullRequest) (p : PullRequest),
      listPRs (splitRepoFullName full).1 (splitRepoFullName full).2 = .ok prs →
      (∀ pr ∈ prs, pr.State = "open") →
      GitHubClient.ListPullRequests listPRs listFiles full = .ok l →
      p ∈ l → p.State = "open") ∧
    (∀ (listMRs : String → Except String (List GLMergeRequest))
        (getChanges : Int → Except String (List GLChange))
        (full : String) (mrs : List GLMergeRequest) (l : List PullRequest) (p : PullRequest),
      listMRs full = .ok mrs →
      (∀ mr ∈ mrs, mr.State = "opened") →
      GitLabClient.ListPullRequests listMRs getChanges full = .ok l →
      p ∈ l → p.State = "opened") := by
  constructor
  · intro listPRs listFiles full prs l p hresp hopen hres hp
    rw [GitHubClient.ListPullRequests, hresp] at hres
    obtain ⟨pr, hpr, hstate⟩ := ghPRWalk_state listFiles prs l hres p hp
    rw [hstate]
    exact hopen pr hpr
  · intro listMRs getChanges full mrs l p hresp hopen hres hp
    rw [GitLabClient.ListPullRequests, hresp] at hres
    obtain ⟨mr, hmr, hstate⟩ := glMRWalk_state getChanges mrs l hres p hp
    rw [hstate]
    exact hopen mr hmr

/-- C5 (witness). -/
theorem open_state_amended_witness :
    ((⟨1, "t", "open", "u", "github", ["f.go"]⟩ : PullRequest).State = "open") ∧
    ((⟨4, "s", "opened", "v", "gitlab", ["g.go"]⟩ : PullRequest).State = "opened") :=
  ⟨open_state_amended.1 (fun _ _ => .ok [⟨1, "t", "open", "u"⟩]) (fun _ => .ok [⟨"f.go"⟩])
      "o/w" [⟨1, "t", "open", "u"⟩] [⟨1, "t", "open", "u", "github", ["f.go"]⟩]
      ⟨1, "t", "open", "u", "github", ["f.go"]⟩ rfl (by decide) rfl (by decide),
    open_state_amended.2 (fun _ => .ok [⟨4, "s", "opened", "v"⟩]) (fun _ => .ok [⟨"g.go"⟩])
      "o/w" [⟨4, "s", "opened", "v"⟩] [⟨4, "s", "opened", "v", "gitlab", ["g.go"]⟩]
      ⟨4, "s", "opened", "v", "gitlab", ["g.go"]⟩ rfl (by decide) rfl (by decide)⟩

/-- C6 (counterexample): the repo-package `splitRepoFullName` maps a
malformed identifier (no separator) to `("", "")` and `GetBlameInfo`
proceeds with those empty components instead of failing: the history fetch
is invoked with owner `""` and repo `""` (echoed into the author name here
to make the passed values observable) and the aggregation succeeds. -/
theorem malformed_repo_counterexample :
    splitRepoFullName "octowidgets" = ("", "") ∧
    GitHubClient.GetBlameInfo (fun owner repo _ => .ok [⟨⟨owner ++ "|" ++ repo, "m"⟩, 0⟩])
        "octowidgets" 1 ["a.go"] = .ok [("|", ⟨"|", 1⟩)] :=
  ⟨rfl, rfl⟩

/-- C6 (amended): in the repo package a repository identifier that does not
split into exactly two parts yields empty owner and name and the operation
proceeds with them (no distinct malformed-identifier error is raised at
this layer); only the CLI-layer `splitRepoFullName` (cmd/cli/root.go)
rejects such identifiers with an error. -/
theorem malformed_repo_amended (fullName : String)
    (fetch : String → String → String → Except String (List RepositoryCommit))
    (n : Int) (files : List String)
    (h : (splitSlash fullName).length ≠ 2) :
    splitRepoFullName fullName = ("", "") ∧
    GitHubClient.GetBlameInfo fetch fullName n files =
      blameWalk ghResolveAuthor (fetch "" "") files [] ∧
    cli.splitRepoFullName fullName =
      .error ("invalid repository name format: " ++ fullName ++
        ". Expected format: owner/repo") := by
  have hsplit : splitRepoFullName fullName = ("", "") := by
    unfold splitRepoFullName
    split
    · rename_i owner repo heq
      exact absurd (by rw [heq]; rfl) h
    · rfl
  refine ⟨hsplit, ?_, ?_⟩
  · simp only [GitHubClient.GetBlameInfo, hsplit]
  · unfold cli.splitRepoFullName
    split
    · rename_i owner repo heq
      exact absurd (by rw [heq]; rfl) h
    · rfl

/-- C6 (witness). -/
theorem malformed_repo_amended_witness :
    splitRepoFullName "octowidgets" = ("", "") ∧
    GitHubClient.GetBlameInfo (fun owner repo _ => .ok [⟨⟨owner ++ "|" ++ repo, "m"⟩, 0⟩])
        "octowidgets" 1 ["a.go"] =
      blameWalk ghResolveAuthor
        ((fun owner repo _ => .ok [⟨⟨owner ++ "|" ++ repo, "m"⟩, 0⟩]) "" "") ["a.go"] [] ∧
    cli.splitRepoFullName "octowidgets" =
      .error ("invalid repository name format: " ++ "octowidgets" ++
        ". Expected format: owner/repo") :=
  malformed_repo_amended "octowidgets"
    (fun owner repo _ => .ok [⟨⟨owner ++ "|" ++ repo, "m"⟩, 0⟩]) 1 ["a.go"] (by decide)

/-- C7: the aggregation walk of `GetBlameInfo` fails fast in both providers:
if the history fetch succeeds for every file before `f` and fails for `f`
with error `e`, the whole call returns the wrapped error for `f`
immediately — no partial per-author mapping is returned and no further
file is fetched. -/
theorem blame_fails_fast
    (ghFetch : String → String → String → Except String (List RepositoryCommit))
    (glFetch : String → String → Except String (List GitLabCommit))
    (full : String) (n : Int) (pre post : List String) (f e : String)
    (hghpre : ∀ g ∈ pre, ∃ cs,
      ghFetch (splitRepoFullName full).1 (splitRepoFullName full).2 g = .ok cs)
    (hghf : ghFetch (splitRepoFullName full).1 (splitRepoFullName full).2 f = .error e)
    (hglpre : ∀ g ∈ pre, ∃ cs, glFetch full g = .ok cs)
    (hglf : glFetch full f = .error e) :
    GitHubClient.GetBlameInfo ghFetch full n (pre ++ f :: post) =
      .error ("failed to get commits for file " ++ f ++ ": " ++ e) ∧
    GitLabClient.GetBlameInfo glFetch full n (pre ++ f :: post) =
      .error ("failed to get commits for file " ++ f ++ ": " ++ e) :=
  ⟨blameWalk_error _ _ pre f post e [] hghpre hghf,
   blameWalk_error _ _ pre f post e [] hglpre hglf⟩

/-- C7 (witness). -/
theorem blame_fails_fast_witness :
    GitHubClient.GetBlameInfo
        (fun _ _ g => if g = "a.go" then .ok [] else .error "boom") "o/w" 1
        (["a.go"] ++ "b.go" :: ["c.go"]) =
      .error ("failed to get commits for file " ++ "b.go" ++ ": " ++ "boom") ∧
    GitLabClient.GetBlameInfo
        (fun _ g => if g = "a.go" then .ok [] else .error "boom") "o/w" 1
        (["a.go"] ++ "b.go" :: ["c.go"]) =
      .error ("failed to get commits for file " ++ "b.go" ++ ": " ++ "boom") :=
  blame_fails_fast (fun _ _ g => if g = "a.go" then .ok [] else .error "boom")
    (fun _ g => if g = "a.go" then .ok [] else .error "boom") "o/w" 1
    ["a.go"] ["c.go"] "b.go" "boom"
    (fun g hg => by rcases List.mem_singleton.mp hg with rfl; exact ⟨[], rfl⟩)
    (by simp)
    (fun g hg => by rcases List.mem_singleton.mp hg with rfl; exact ⟨[], rfl⟩)
    (by simp)

/-- C8: with a fixed assignment `hGH`/`hGL` of per-file commit histories
(every fetch succeeding), `GetBlameInfo` of either provider is a pure
reduction: it returns exactly the fold `blameFold` of those histories
(hence repeated invocations are identical), and the per-author totals are
unchanged under any permutation of the changed-file list — the
change-request number plays no role. -/
theorem blame_order_independent
    (ghFetch : String → String → String → Except String (List RepositoryCommit))
    (glFetch : String → String → Except String (List GitLabCommit))
    (full : String) (n₁ n₂ : Int)
    (hGH : String → List RepositoryCommit) (hGL : String → List GitLabCommit)
    (files files' : List String) (a : String)
    (hperm : files.Perm files')
    (hghf : ∀ g, ghFetch (splitRepoFullName full).1 (splitRepoFullName full).2 g = .ok (hGH g))
    (hglf : ∀ g, glFetch full g = .ok (hGL g)) :
    GitHubClient.GetBlameInfo ghFetch full n₁ files =
      .ok (blameFold ghResolveAuthor hGH files []) ∧
    GitHubClient.GetBlameInfo ghFetch full n₂ files' =
      .ok (blameFold ghResolveAuthor hGH files' []) ∧
    lookupBlame (blameFold ghResolveAuthor hGH files []) a =
      lookupBlame (blameFold ghResolveAuthor hGH files' []) a ∧
    GitLabClient.GetBlameInfo glFetch full n₁ files =
      .ok (blameFold glResolveAuthor hGL files []) ∧
    GitLabClient.GetBlameInfo glFetch full n₂ files' =
      .ok (blameFold glResolveAuthor hGL files' []) ∧
    lookupBlame (blameFold glResolveAuthor hGL files []) a =
      lookupBlame (blameFold glResolveAuthor hGL files' []) a := by
  refine ⟨?_, ?_, ?_, ?_, ?_, ?_⟩
  · exact blameWalk_ok _ _ hGH files [] (fun g _ => hghf g)
  · exact blameWalk_ok _ _ hGH files' [] (fun g _ => hghf g)
  · rw [lookupBlame_blameFold, lookupBlame_blameFold,
      totalBy_perm ghResolveAuthor hGH a hperm]
  · exact blameWalk_ok _ _ hGL files [] (fun g _ => hglf g)
  · exact blameWalk_ok _ _ hGL files' [] (fun g _ => hglf g)
  · rw [lookupBlame_blameFold, lookupBlame_blameFold,
      totalBy_perm glResolveAuthor hGL a hperm]

/-- Sample per-file GitHub history used to instantiate C8's theorem. -/
def sampleHistGH : String → List RepositoryCommit := fun g =>
  if g = "a.go" then [⟨⟨"alice", ""⟩, 3⟩, ⟨⟨"alice", ""⟩, 2⟩]
  else if g = "b.go" then [⟨⟨"bob", ""⟩, 4⟩] else []

/-- Sample per-file GitLab history used to instantiate C8's theorem. -/
def sampleHistGL : String → List GitLabCommit := fun g =>
  if g = "a.go" then [⟨"alice", "", 3⟩, ⟨"alice", "", 2⟩]
  else if g = "b.go" then [⟨"bob", "", 4⟩] else []

/-- C8 (witness). -/
theorem blame_order_independent_witness :
    GitHubClient.GetBlameInfo (fun _ _ g => .ok (sampleHistGH g)) "o/w" 7 ["a.go", "b.go"] =
      .ok (blameFold ghResolveAuthor sampleHistGH ["a.go", "b.go"] []) ∧
    GitHubClient.GetBlameInfo (fun _ _ g => .ok (sampleHistGH g)) "o/w" 9 ["b.go", "a.go"] =
      .ok (blameFold ghResolveAuthor sampleHistGH ["b.go", "a.go"] []) ∧
    lookupBlame (blameFold ghResolveAuthor sampleHistGH ["a.go", "b.go"] []) "alice" =
      lookupBlame (blameFold ghResolveAuthor sampleHistGH ["b.go", "a.go"] []) "alice" ∧
    GitLabClient.GetBlameInfo (fun _ g => .ok (sampleHistGL g)) "o/w" 7 ["a.go", "b.go"] =
      .ok (blameFold glResolveAuthor sampleHistGL ["a.go", "b.go"] []) ∧
    GitLabClient.GetBlameInfo (fun _ g => .ok (sampleHistGL g)) "o/w" 9 ["b.go", "a.go"] =
      .ok (blameFold glResolveAuthor sampleHistGL ["b.go", "a.go"] []) ∧
    lookupBlame (blameFold glResolveAuthor sampleHistGL ["a.go", "b.go"] []) "alice" =
      lookupBlame (blameFold glResolveAuthor sampleHistGL ["b.go", "a.go"] []) "alice" :=
  blame_order_independent (fun _ _ g => .ok (sampleHistGH g)) (fun _ g => .ok (sampleHistGL g))
    "o/w" 7 9 sampleHistGH sampleHistGL ["a.go", "b.go"] ["b.go", "a.go"] "alice"
    (by decide) (fun g => rfl) (fun g => rfl)

/-- C9: when the requested change-request number matches none of the listed
open pull requests, `Server.handleMessages` answers with the 404 not-found
response (distinct from the 500 transport-failure responses), and the
result does not depend on the blame function at all — no blame call is
issued. -/
theorem handler_not_found (prs : List PullRequest)
    (g₁ g₂ : List String → Except String (List (String × BlameInfo))) (n : Int)
    (h : ∀ pr ∈ prs, pr.Number ≠ n) :
    Server.handleMessages (.ok prs) g₁ n =
      .errorResp 404 ("Pull request #" ++ toString n ++ " not found") ∧
    Server.handleMessages (.ok prs) g₁ n = Server.handleMessages (.ok prs) g₂ n := by
  have hfind : prs.find? (fun pr => pr.Number == n) = none :=
    List.find?_eq_none.mpr (fun pr hpr => by simpa using h pr hpr)
  constructor <;> simp [Server.handleMessages, hfind]

/-- C9 (witness). -/
theorem handler_not_found_witness :
    Server.handleMessages (.ok [⟨7, "t", "open", "u", "github", ["a.go"]⟩])
        (fun _ => .ok [("x", ⟨"x", 1⟩)]) 99 =
      .errorResp 404 ("Pull request #" ++ toString (99 : Int) ++ " not found") ∧
    Server.handleMessages (.ok [⟨7, "t", "open", "u", "github", ["a.go"]⟩])
        (fun _ => .ok [("x", ⟨"x", 1⟩)]) 99 =
      Server.handleMessages (.ok [⟨7, "t", "open", "u", "github", ["a.go"]⟩])
        (fun _ => .error "boom") 99 :=
  handler_not_found [⟨7, "t", "open", "u", "github", ["a.go"]⟩]
    (fun _ => .ok [("x", ⟨"x", 1⟩)]) (fun _ => .error "boom") 99 (by decide)

/-- C10: the change-request-number argument of `GetBlameInfo` is never read
by either provider's aggregation: with the same fetch environment and file
list, any two numbers produce identical results. -/
theorem blame_ignores_pr_number
    (ghFetch : String → String → String → Except String (List RepositoryCommit))
    (glFetch : String → String → Except String (List GitLabCommit))
    (full : String) (files : List String) (n₁ n₂ : Int) :
    GitHubClient.GetBlameInfo ghFetch full n₁ files =
      GitHubClient.GetBlameInfo ghFetch full n₂ files ∧
    GitLabClient.GetBlameInfo glFetch full n₁ files =
      GitLabClient.GetBlameInfo glFetch full n₂ files :=
  ⟨rfl, rfl⟩

end GitAnalyzer
